import Mathlib

/-!
Verification of the KaiSurf browser repository's core logic against its
natural-language specification.

The development shallowly embeds the TypeScript source:

* `useDatabase` (bookmarks / history over SQLite) — `DbState`,
  `addBookmark`, `addToHistoryCore`, `getHistory`, `removeHistoryItem`,
  `clearHistory`.  SQL result sets are lists of rows; `AUTOINCREMENT` ids
  are modelled by a `nextHistoryId` / `nextBookmarkId` counter;
  `CURRENT_TIMESTAMP` is an explicit time argument.  The retention query
  `DELETE FROM history WHERE id NOT IN (SELECT id FROM history ORDER BY
  visited_at DESC LIMIT 1000)` keeps exactly the rows with fewer than
  1000 rows strictly greater in the (visited_at, id) order; ids are
  strictly increasing, so this order is total on any reachable table and
  coincides with `visited_at DESC` recency whenever timestamps are
  distinct.
* `useSettings` — `AppSettings`, `mergeSettings`, `updateSettings`, and a
  key-map model (`JSObj`) of the untyped JavaScript object produced by
  `{...DEFAULT_SETTINGS, ...parsed}` at load time.
* `useModuleFeedback` — `logActivity`, `addModuleFeedback`,
  `simulateKAiSurfLogin`; the React `setState` and `AsyncStorage.setItem`
  effects are recorded, in execution order, in a `LogEvent` trace, and
  the Math.random outcome is an explicit Boolean argument.
* `history.tsx`'s `organizeHistory` — pure bucketing of history rows into
  Today / Yesterday / This Week / Older sections; timestamps are
  milliseconds since epoch (`Int`), local midnight is an explicit
  argument.
* `index.tsx`'s `handleUrlSubmit` — URL normalization including a
  faithful `encodeURIComponent`.
-/

/-! ### JavaScript string helpers -/

/-- Prefix test on character lists, used to implement JS
`String.prototype.includes`. -/
def isPrefixChars : List Char → List Char → Bool
  | [], _ => true
  | _ :: _, [] => false
  | c :: cs, d :: ds => c = d && isPrefixChars cs ds

/-- Substring search on character lists: `containsSubstring hay pat` is
true iff `pat` occurs contiguously in `hay` (JS `hay.includes(pat)`). -/
def containsSubstring (hay pat : List Char) : Bool :=
  match hay with
  | [] => pat.isEmpty
  | _ :: t => isPrefixChars pat hay || containsSubstring t pat

/-- JS `hay.includes(pat)` on strings. -/
def jsIncludes (hay pat : String) : Bool :=
  containsSubstring hay.toList pat.toList

/-- JS `String.prototype.trim`, over the character list (the built-in
byte-based `String.trim` is opaque to kernel reduction). -/
def jsTrim (s : String) : String :=
  String.mk
    (((s.toList.dropWhile Char.isWhitespace).reverse.dropWhile
        Char.isWhitespace).reverse)

/-- JS `s.startsWith(p)` / the regex test `^https?:\/\/`, over character
lists. -/
def startsWithStr (s p : String) : Bool :=
  isPrefixChars p.toList s.toList

/-- JS `s.includes(c)` for a single-character needle. -/
def containsChar (s : String) (c : Char) : Bool :=
  s.toList.contains c

/-- JS `String.prototype.toLowerCase`, over the character list. -/
def toLowerStr (s : String) : String :=
  String.mk (s.toList.map Char.toLower)

/-- Characters left unescaped by JS `encodeURIComponent`:
`A–Z a–z 0–9 - _ . ! ~ * ' ( )`.  The apostrophe is written via its code
point 39. -/
def isUriUnreserved (c : Char) : Bool :=
  c.isAlphanum || c = '-' || c = '_' || c = '.' || c = '!' || c = '~' ||
    c = '*' || c = Char.ofNat 39 || c = '(' || c = ')'

/-- Upper-case hexadecimal digit for `n < 16`. -/
def hexDigit (n : Nat) : Char :=
  if n < 10 then Char.ofNat (48 + n) else Char.ofNat (55 + n)

/-- `%XX` escape of one byte. -/
def percentByte (b : Nat) : String :=
  String.mk ['%', hexDigit (b / 16 % 16), hexDigit (b % 16)]

/-- UTF-8 bytes of one code point (JS strings are encoded as UTF-8 before
percent-escaping). -/
def utf8Bytes (c : Char) : List Nat :=
  let n := c.toNat
  if n < 128 then [n]
  else if n < 2048 then [192 + n / 64, 128 + n % 64]
  else if n < 65536 then [224 + n / 4096, 128 + n / 64 % 64, 128 + n % 64]
  else [240 + n / 262144, 128 + n / 4096 % 64, 128 + n / 64 % 64, 128 + n % 64]

/-- JS `encodeURIComponent`. -/
def encodeURIComponent (s : String) : String :=
  String.join (s.toList.map fun c =>
    if isUriUnreserved c then String.mk [c]
    else String.join ((utf8Bytes c).map percentByte))

/-! ### Browser screen: `handleUrlSubmit` URL normalization
(`index.tsx`).  The code trims the input, returns early when it is empty,
passes through inputs matching `^https?:\/\/`, prepends `https://` when
the input contains a dot and no space, and otherwise builds a Google
search URL from the encoded input. -/

/-- URL normalization performed by `handleUrlSubmit`; `none` models the
early return on empty (trimmed) input. -/
def handleUrlSubmitNorm (input : String) : Option String :=
  let url := jsTrim input
  if url = "" then none
  else if startsWithStr url "http://" || startsWithStr url "https://" then some url
  else if containsChar url '.' && !(containsChar url ' ') then
    some ("https://" ++ url)
  else some ("https://www.google.com/search?q=" ++ encodeURIComponent url)

/-! ### Settings store (`useSettings`) -/

/-- The `AppSettings` record with the `DEFAULT_SETTINGS` field layout. -/
structure AppSettings where
  homepage : String
  searchEngine : String
  privateBrowsing : Bool
  blockPopups : Bool
  clearDataOnExit : Bool
  darkMode : Bool
  showStatusBar : Bool
  javascriptEnabled : Bool
deriving DecidableEq, Repr

/-- `DEFAULT_SETTINGS` from `useSettings.ts`. -/
def DEFAULT_SETTINGS : AppSettings :=
  { homepage := "https://www.google.com"
    searchEngine := "Google"
    privateBrowsing := false
    blockPopups := true
    clearDataOnExit := false
    darkMode := false
    showStatusBar := true
    javascriptEnabled := true }

/-- A JavaScript runtime value stored under a settings key. -/
inductive SVal where
  | str (v : String)
  | boolean (v : Bool)
deriving DecidableEq, Repr

/-- An untyped JavaScript object, as a partial map from keys to values.
`none` means the key is absent from the object. -/
def JSObj : Type := String → Option SVal

/-- JS object spread `{...a, ...b}`: keys of `b` override / extend keys
of `a`. -/
def jsSpread (a b : JSObj) : JSObj :=
  fun k => (b k).orElse (fun _ => a k)

/-- `DEFAULT_SETTINGS` viewed as an untyped object. -/
def defaultSettingsObj : JSObj := fun k =>
  if k = "homepage" then some (.str "https://www.google.com")
  else if k = "searchEngine" then some (.str "Google")
  else if k = "privateBrowsing" then some (.boolean false)
  else if k = "blockPopups" then some (.boolean true)
  else if k = "clearDataOnExit" then some (.boolean false)
  else if k = "darkMode" then some (.boolean false)
  else if k = "showStatusBar" then some (.boolean true)
  else if k = "javascriptEnabled" then some (.boolean true)
  else none

/-- The object `loadSettings` passes to `setSettings` when a stored blob
parses successfully: `{ ...DEFAULT_SETTINGS, ...parsed }`. -/
def loadSettingsMerge (parsed : JSObj) : JSObj :=
  jsSpread defaultSettingsObj parsed

/-- A `Partial<AppSettings>` argument to `updateSettings`: each field is
optionally present. -/
structure PartialSettings where
  homepage : Option String := none
  searchEngine : Option String := none
  privateBrowsing : Option Bool := none
  blockPopups : Option Bool := none
  clearDataOnExit : Option Bool := none
  darkMode : Option Bool := none
  showStatusBar : Option Bool := none
  javascriptEnabled : Option Bool := none
deriving DecidableEq, Repr

/-- Shallow merge `{ ...settings, ...newSettings }` for the typed
settings record. -/
def mergeSettings (s : AppSettings) (p : PartialSettings) : AppSettings :=
  { homepage := p.homepage.getD s.homepage
    searchEngine := p.searchEngine.getD s.searchEngine
    privateBrowsing := p.privateBrowsing.getD s.privateBrowsing
    blockPopups := p.blockPopups.getD s.blockPopups
    clearDataOnExit := p.clearDataOnExit.getD s.clearDataOnExit
    darkMode := p.darkMode.getD s.darkMode
    showStatusBar := p.showStatusBar.getD s.showStatusBar
    javascriptEnabled := p.javascriptEnabled.getD s.javascriptEnabled }

/-- The settings hook's observable state: the React state value and the
blob currently held by `AsyncStorage` (`none` when the key is absent). -/
structure SettingsStore where
  inMemory : AppSettings
  stored : Option AppSettings
deriving DecidableEq, Repr

/-- Ordered effects performed by `updateSettings`. -/
inductive SettingsEvent where
  | persist (s : AppSettings)
  | publish (s : AppSettings)
deriving DecidableEq, Repr

/-- `updateSettings(newSettings)`: merges over the current settings,
`await saveSettingsToStorage(updated)` (which throws
`'Failed to save settings'` when the write fails; the failure aborts the
call before `setSettings` runs and is rethrown), then
`setSettings(updated)`.  `writeOk` is the outcome of the storage write;
the returned trace lists the performed effects in execution order. -/
def updateSettings (st : SettingsStore) (p : PartialSettings) (writeOk : Bool) :
    SettingsStore × List SettingsEvent × Except String Unit :=
  let updated := mergeSettings st.inMemory p
  if writeOk then
    ({ inMemory := updated, stored := some updated },
     [SettingsEvent.persist updated, SettingsEvent.publish updated],
     Except.ok ())
  else
    (st, [], Except.error "Failed to save settings")

/-! ### Page store (`useDatabase`): bookmarks and history -/

/-- A row of the `bookmarks` table. -/
structure BookmarkRow where
  id : Nat
  url : String
  title : String
  created_at : Nat
deriving DecidableEq, Repr

/-- A row of the `history` table.  `visited_at` is the insertion-time
`CURRENT_TIMESTAMP`. -/
structure HistoryRow where
  id : Nat
  url : String
  title : String
  visited_at : Nat
deriving DecidableEq, Repr

/-- The SQLite database state.  Table contents are lists of rows in
insertion order; the `next…Id` counters model `AUTOINCREMENT`, which
assigns strictly increasing ids. -/
structure DbState where
  bookmarks : List BookmarkRow
  history : List HistoryRow
  nextBookmarkId : Nat
  nextHistoryId : Nat
deriving DecidableEq, Repr

/-- Errors thrown by the `useDatabase` hook. -/
inductive DbError where
  | notInitialized
  | bookmarkExists
deriving DecidableEq, Repr

/-- Strict recency order on history rows used by the retention query:
`visited_at DESC`, ties broken towards the most recently inserted row
(larger id; `AUTOINCREMENT` ids grow with insertion order). -/
def keyGT (a b : HistoryRow) : Bool :=
  b.visited_at < a.visited_at || (a.visited_at = b.visited_at && b.id < a.id)

/-- Number of rows of `l` strictly more recent than `r` in `keyGT`
order: `r`'s distance from the top of `ORDER BY visited_at DESC`. -/
def rankOf (l : List HistoryRow) (r : HistoryRow) : Nat :=
  (l.filter fun s => keyGT s r).length

/-- The retention statement
`DELETE FROM history WHERE id NOT IN (SELECT id FROM history ORDER BY
visited_at DESC LIMIT 1000)`: a row survives iff it is among the top
1000 of the recency order, i.e. iff fewer than 1000 rows rank strictly
above it (the characterization of `LIMIT` when the order is total, which
it is here because ids are distinct). -/
def capHistory (l : List HistoryRow) : List HistoryRow :=
  l.filter fun r => rankOf l r < 1000

/-- `addToHistory(url, title)` on an initialized database at time `t`:
`DELETE FROM history WHERE url = ?`, then
`INSERT INTO history (url, title) VALUES (?, ?)` (id from
`AUTOINCREMENT`, `visited_at` from `CURRENT_TIMESTAMP`), then the
1000-row retention delete. -/
def addToHistoryCore (s : DbState) (url title : String) (t : Nat) : DbState :=
  let afterDelete := s.history.filter fun r => r.url ≠ url
  let newRow : HistoryRow :=
    { id := s.nextHistoryId, url := url, title := title, visited_at := t }
  { s with
    history := capHistory (afterDelete ++ [newRow])
    nextHistoryId := s.nextHistoryId + 1 }

/-- `addBookmark(url, title)` on an initialized database at time `t`:
`SELECT id FROM bookmarks WHERE url = ?`; if a row exists the call throws
`'Bookmark already exists'` without modifying the store, otherwise
`INSERT INTO bookmarks (url, title) VALUES (?, ?)`. -/
def addBookmarkCore (s : DbState) (url title : String) (t : Nat) :
    Except DbError DbState :=
  if s.bookmarks.any fun b => b.url = url then
    Except.error DbError.bookmarkExists
  else
    Except.ok { s with
      bookmarks := s.bookmarks ++
        [{ id := s.nextBookmarkId, url := url, title := title, created_at := t }]
      nextBookmarkId := s.nextBookmarkId + 1 }

/-- Hook-level `addBookmark`: `if (!db) throw new Error('Database not
initialized')`, then the initialized-path behaviour. -/
def addBookmark (db : Option DbState) (url title : String) (t : Nat) :
    Except DbError DbState :=
  match db with
  | none => Except.error DbError.notInitialized
  | some s => addBookmarkCore s url title t

/-- Hook-level `addToHistory`: `if (!db) return;` — a silent no-op that
neither throws nor changes anything; query errors are likewise swallowed
(the function's only outcome is a database state). -/
def addToHistory (db : Option DbState) (url title : String) (t : Nat) :
    Option DbState :=
  match db with
  | none => none
  | some s => some (addToHistoryCore s url title t)

/-- Hook-level `getHistory`: `if (!db) return [];` and a `catch` that
returns `[]` on query failure, else
`SELECT * FROM history ORDER BY visited_at DESC LIMIT 100`.  The
returned rows are the top 100 of the recency order (their relative order
is not observed by any claim and is left as table order). -/
def getHistory (db : Option DbState) (queryFails : Bool) : List HistoryRow :=
  match db with
  | none => []
  | some s =>
    if queryFails then []
    else s.history.filter fun r => rankOf s.history r < 100

/-- Hook-level `removeHistoryItem`: throws `'Database not initialized'`
before initialization, else `DELETE FROM history WHERE id = ?`. -/
def removeHistoryItem (db : Option DbState) (id : Nat) :
    Except DbError DbState :=
  match db with
  | none => Except.error DbError.notInitialized
  | some s => Except.ok { s with history := s.history.filter fun r => r.id ≠ id }

/-- Hook-level `clearHistory`: throws `'Database not initialized'`
before initialization, else `DELETE FROM history`. -/
def clearHistory (db : Option DbState) : Except DbError DbState :=
  match db with
  | none => Except.error DbError.notInitialized
  | some s => Except.ok { s with history := [] }

/-! ### Activity / module feedback log (`useModuleFeedback`) -/

/-- An `ActivityLog` entry; `id` is `Date.now().toString()` and
`timestamp` is `new Date().toISOString()`, both passed in explicitly. -/
structure ActivityEntry where
  id : String
  timestamp : String
  activity_type : String
  content : String
  module : Option String
deriving DecidableEq, Repr

/-- A `ModuleFeedback` entry; `feedback_type` is one of
`SUCCESS | ERROR | WARNING | INFO`, kept as a string as in the source. -/
structure FeedbackEntry where
  module_name : String
  feedback_type : String
  message : String
  timestamp : String
  file_reference : Option String
deriving DecidableEq, Repr

/-- The hook's observable state: the two React state arrays and the two
`AsyncStorage` blobs. -/
structure LogState where
  activity : List ActivityEntry
  storedActivity : List ActivityEntry
  feedback : List FeedbackEntry
  storedFeedback : List FeedbackEntry
deriving DecidableEq, Repr

/-- The hook's initial state: nothing loaded, nothing stored. -/
def emptyLogState : LogState :=
  { activity := [], storedActivity := [], feedback := [], storedFeedback := [] }

/-- Effects performed by the log hook, recorded in execution order. -/
inductive LogEvent where
  | setActivityState (l : List ActivityEntry)
  | persistActivity (l : List ActivityEntry)
  | setFeedbackState (l : List FeedbackEntry)
  | persistFeedback (l : List FeedbackEntry)
deriving DecidableEq, Repr

/-- Whether a log event is a storage write. -/
def isPersistEvent : LogEvent → Bool
  | LogEvent.persistActivity _ => true
  | LogEvent.persistFeedback _ => true
  | _ => false

/-- `logActivity(activityType, content, module)`: builds the new entry,
computes `[newActivity, ...activityLog].slice(0, 1000)`, calls
`setActivityLog(updatedLog)` and then
`await AsyncStorage.setItem(ACTIVITY_LOG_KEY, ...)`; a write failure is
caught and swallowed after the state update has already happened.
`writeOk` is the storage write's outcome; the trace lists the performed
effects in execution order (a failed write performs no storage
effect). -/
def logActivity (st : LogState) (nowId nowTs aType content : String)
    (module : Option String) (writeOk : Bool) : LogState × List LogEvent :=
  let newActivity : ActivityEntry :=
    { id := nowId, timestamp := nowTs, activity_type := aType,
      content := content, module := module }
  let updatedLog := (newActivity :: st.activity).take 1000
  if writeOk then
    ({ st with activity := updatedLog, storedActivity := updatedLog },
     [LogEvent.setActivityState updatedLog, LogEvent.persistActivity updatedLog])
  else
    ({ st with activity := updatedLog },
     [LogEvent.setActivityState updatedLog])

/-- `addModuleFeedback(moduleName, feedbackType, message, fileReference)`:
same shape as `logActivity` with cap 500 and no id field. -/
def addModuleFeedback (st : LogState) (moduleName feedbackType message nowTs : String)
    (fileReference : Option String) (writeOk : Bool) : LogState × List LogEvent :=
  let newFeedback : FeedbackEntry :=
    { module_name := moduleName, feedback_type := feedbackType,
      message := message, timestamp := nowTs, file_reference := fileReference }
  let updatedFeedback := (newFeedback :: st.feedback).take 500
  if writeOk then
    ({ st with feedback := updatedFeedback, storedFeedback := updatedFeedback },
     [LogEvent.setFeedbackState updatedFeedback, LogEvent.persistFeedback updatedFeedback])
  else
    ({ st with feedback := updatedFeedback },
     [LogEvent.setFeedbackState updatedFeedback])

/-- The result object of `simulateKAiSurfLogin`. -/
inductive LoginResult where
  | ok (username : String)
  | fail (error : String)
deriving DecidableEq, Repr

/-- JS `roamingId.split(' ')[i]`, with a missing element rendering as
the string `"undefined"` inside the template literal. -/
def jsSplitAt (s : String) (i : Nat) : String :=
  ((s.splitOn " ").get? i).getD "undefined"

/-- The derived daily username
`` `${roamingId.split(' ')[0]}-${date}-${roamingId.split(' ')[1]}` ``
where `date` is `new Date().toISOString().split('T')[0]`. -/
def dailyUsername (roamingId today : String) : String :=
  jsSplitAt roamingId 0 ++ "-" ++ today ++ "-" ++ jsSplitAt roamingId 1

/-- `simulateKAiSurfLogin(roamingId)`: logs a `KAISURF_LOGIN_ATTEMPT`
activity entry, suspends, then — on the `Math.random() > 0.3` branch
(`success`, an explicit argument here) — logs a `KAISURF_LOGIN_SUCCESS`
activity entry and a `SUCCESS` feedback entry and returns the derived
username; on the failure branch logs a `KAISURF_LOGIN_FAILURE` activity
entry and an `ERROR` feedback entry and returns the failure reason.

Both `logActivity` calls close over the same render-time `activityLog`
const: the second call computes its update from that same stale list
(modelled by resetting `activity` to `st.activity` before the call), so
its `setActivityLog`/`setItem` overwrite the first call's update and the
attempt entry does not survive to the final state.  `addModuleFeedback`
likewise reads the render-time `moduleFeedback`, which no earlier call
in this function modifies.  `nowId`/`nowTs`/`today` stand for the clock
reads, `writeOk` for the storage writes' shared outcome. -/
def simulateKAiSurfLogin (st : LogState) (roamingId : String) (success : Bool)
    (nowId nowTs today : String) (writeOk : Bool) :
    LogState × List LogEvent × LoginResult :=
  let r1 := logActivity st nowId nowTs "KAISURF_LOGIN_ATTEMPT"
    ("Login attempt with roaming ID: " ++ roamingId) (some "KAiSurf") writeOk
  if success then
    let u := dailyUsername roamingId today
    let r2 := logActivity { r1.1 with activity := st.activity } nowId nowTs
      "KAISURF_LOGIN_SUCCESS"
      ("Successful login with username: " ++ u) (some "KAiSurf") writeOk
    let r3 := addModuleFeedback r2.1 "KAiSurf" "SUCCESS"
      ("Login successful. Daily username: " ++ u) nowTs none writeOk
    (r3.1, r1.2 ++ r2.2 ++ r3.2, LoginResult.ok u)
  else
    let r2 := logActivity { r1.1 with activity := st.activity } nowId nowTs
      "KAISURF_LOGIN_FAILURE"
      "Login failed - invalid credentials" (some "KAiSurf") writeOk
    let r3 := addModuleFeedback r2.1 "KAiSurf" "ERROR"
      "Login failed. Please check your roaming ID." nowTs none writeOk
    (r3.1, r1.2 ++ r2.2 ++ r3.2, LoginResult.fail "Invalid credentials")

/-! ### History screen: `organizeHistory` (`history.tsx`) -/

/-- A history row as the screen sees it; `visited_at` is milliseconds
since the epoch (the value of `new Date(item.visited_at).getTime()`),
signed to keep subtraction of day spans total. -/
structure HItem where
  id : Nat
  url : String
  title : String
  visited_at : Int
deriving DecidableEq, Repr

/-- The search predicate:
`item.title.toLowerCase().includes(q.toLowerCase()) ||
 item.url.toLowerCase().includes(q.toLowerCase())`. -/
def matchesQuery (q : String) (item : HItem) : Bool :=
  jsIncludes (toLowerStr item.title) (toLowerStr q) ||
    jsIncludes (toLowerStr item.url) (toLowerStr q)

/-- The list the screen buckets: the full history, filtered by
`matchesQuery` when the trimmed search text is nonempty. -/
def filteredBy (history : List HItem) (searchQuery : String) : List HItem :=
  if jsTrim searchQuery ≠ "" then history.filter (matchesQuery searchQuery)
  else history

/-- Milliseconds in a day (`24 * 60 * 60 * 1000`). -/
def dayMs : Int := 86400000

/-- `organizeHistory` as a pure function of the history list, the search
text and `today` (= local midnight, the value of
`new Date(y, m, d).getTime()`).  Each filtered row lands in the first
matching bucket of the `if`/`else` chain — Today (`visited ≥ today`),
Yesterday (`≥ today − 24h`), This Week (`≥ today − 7d`), Older — and
empty buckets produce no section. -/
def organizeHistory (history : List HItem) (searchQuery : String) (today : Int) :
    List (String × List HItem) :=
  let filteredHistory := filteredBy history searchQuery
  let yesterday := today - dayMs
  let weekAgo := today - 7 * dayMs
  let todayItems := filteredHistory.filter fun i => today ≤ i.visited_at
  let yesterdayItems := filteredHistory.filter fun i =>
    i.visited_at < today && yesterday ≤ i.visited_at
  let thisWeekItems := filteredHistory.filter fun i =>
    i.visited_at < yesterday && weekAgo ≤ i.visited_at
  let olderItems := filteredHistory.filter fun i => i.visited_at < weekAgo
  (if todayItems.isEmpty then [] else [("Today", todayItems)]) ++
  (if yesterdayItems.isEmpty then [] else [("Yesterday", yesterdayItems)]) ++
  (if thisWeekItems.isEmpty then [] else [("This Week", thisWeekItems)]) ++
  (if olderItems.isEmpty then [] else [("Older", olderItems)])

/-- The specification's C3 example rows: visit timestamps at `now`,
`now − 2h`, `now − 26h`, `now − 8d`. -/
def c3sample (now : Int) : List HItem :=
  [{ id := 1, url := "a", title := "A", visited_at := now },
   { id := 2, url := "b", title := "B", visited_at := now - 7200000 },
   { id := 3, url := "c", title := "C", visited_at := now - 93600000 },
   { id := 4, url := "d", title := "D", visited_at := now - 691200000 }]

/-- A fresh, empty database state. -/
def emptyDb : DbState :=
  { bookmarks := [], history := [], nextBookmarkId := 0, nextHistoryId := 0 }

/-- A synthetic history row with both id and visit time `k`, used to
build a concrete 1000-row store. -/
def c2row (k : Nat) : HistoryRow :=
  { id := k, url := "u", title := "t", visited_at := k }

/-- A database holding 1000 history rows with strictly increasing visit
timestamps `1, …, 1000`. -/
def c2store : DbState :=
  { bookmarks := [], history := (List.range' 1 1000).map c2row,
    nextBookmarkId := 0, nextHistoryId := 2000 }

/-! ## Helper lemmas -/

theorem mem_sectionBlock {n : String} {l : List HItem} {p : String × List HItem}
    (hp : p ∈ (if l.isEmpty then ([] : List (String × List HItem)) else [(n, l)])) :
    p = (n, l) ∧ l ≠ [] := by
  split at hp
  · cases hp
  · rename_i hne
    refine ⟨List.mem_singleton.mp hp, ?_⟩
    intro hnil
    exact hne (by simp [hnil])

theorem count_filter_eq {α : Type} [BEq α] [LawfulBEq α] (p : α → Bool)
    (l : List α) (a : α) :
    (l.filter p).count a = if p a = true then l.count a else 0 := by
  split
  · exact List.count_filter (by assumption)
  · rename_i hpa
    refine List.count_eq_zero.mpr fun hmem => ?_
    exact hpa (List.mem_filter.mp hmem).2

theorem keyGT_irrefl (r : HistoryRow) : keyGT r r = false := by
  simp [keyGT]

theorem keyGT_trans {a b c : HistoryRow} (h1 : keyGT a b = true)
    (h2 : keyGT b c = true) : keyGT a c = true := by
  simp only [keyGT, Bool.or_eq_true, Bool.and_eq_true, decide_eq_true_eq] at *
  omega

theorem keyGT_total {a b : HistoryRow} (h : a.id ≠ b.id) :
    keyGT a b = true ∨ keyGT b a = true := by
  simp only [keyGT, Bool.or_eq_true, Bool.and_eq_true, decide_eq_true_eq]
  omega

theorem length_filter_le_length_filter {α : Type} {p q : α → Bool} :
    ∀ l : List α, (∀ x ∈ l, p x = true → q x = true) →
      (l.filter p).length ≤ (l.filter q).length := by
  intro l
  induction l with
  | nil => intro _; simp
  | cons x t ih =>
    intro hpq
    have ht : ∀ y ∈ t, p y = true → q y = true :=
      fun y hy => hpq y (List.mem_cons_of_mem _ hy)
    by_cases hp : p x = true
    · have hq := hpq x (List.mem_cons_self x t) hp
      rw [List.filter_cons_of_pos hp, List.filter_cons_of_pos hq]
      exact Nat.succ_le_succ (ih ht)
    · rw [List.filter_cons_of_neg hp]
      by_cases hq : q x = true
      · rw [List.filter_cons_of_pos hq]
        exact Nat.le_succ_of_le (ih ht)
      · rw [List.filter_cons_of_neg hq]
        exact ih ht

theorem length_filter_lt_length_filter {α : Type} {p q : α → Bool} {a : α} :
    ∀ l : List α, (∀ x ∈ l, p x = true → q x = true) → a ∈ l →
      q a = true → p a = false →
      (l.filter p).length < (l.filter q).length := by
  intro l
  induction l with
  | nil => intro _ ha; cases ha
  | cons x t ih =>
    intro hpq ha hqa hpa
    have ht : ∀ y ∈ t, p y = true → q y = true :=
      fun y hy => hpq y (List.mem_cons_of_mem _ hy)
    rcases List.mem_cons.mp ha with rfl | hat
    · rw [List.filter_cons_of_neg (by simp [hpa]), List.filter_cons_of_pos hqa]
      exact Nat.lt_succ_of_le (length_filter_le_length_filter t ht)
    · by_cases hp : p x = true
      · have hq := hpq x (List.mem_cons_self x t) hp
        rw [List.filter_cons_of_pos hp, List.filter_cons_of_pos hq]
        exact Nat.succ_lt_succ (ih ht hat hqa hpa)
      · rw [List.filter_cons_of_neg hp]
        by_cases hq : q x = true
        · rw [List.filter_cons_of_pos hq]
          exact Nat.lt_succ_of_lt (ih ht hat hqa hpa)
        · rw [List.filter_cons_of_neg hq]
          exact ih ht hat hqa hpa

theorem length_filter_lt_of_mem {α : Type} {l : List α} {p : α → Bool} {a : α}
    (ha : a ∈ l) (hpa : p a = false) : (l.filter p).length < l.length := by
  have h := length_filter_lt_length_filter (q := fun _ => true) l
    (fun x _ _ => rfl) ha rfl hpa
  simpa using h

theorem rankOf_lt_rankOf {l : List HistoryRow} {a b : HistoryRow}
    (hab : keyGT a b = true) (hal : a ∈ l) :
    rankOf l a < rankOf l b := by
  unfold rankOf
  exact length_filter_lt_length_filter l (fun x _ hxa => keyGT_trans hxa hab)
    hal hab (keyGT_irrefl a)

/-- Top-`n` selection keeps at most `n` rows: with pairwise-distinct ids
the recency order is total, so distinct surviving rows have distinct
ranks, all below `n`. -/
theorem length_filter_rank_lt_le {l : List HistoryRow} (n : Nat)
    (hnd : (l.map HistoryRow.id).Nodup) :
    (l.filter fun r => rankOf l r < n).length ≤ n := by
  have hpair : l.Pairwise fun a b => a.id ≠ b.id :=
    List.pairwise_map.mp hnd
  have hrank : l.Pairwise fun a b => rankOf l a ≠ rankOf l b := by
    refine List.Pairwise.imp_of_mem ?_ hpair
    intro a b ha hb hne
    rcases keyGT_total hne with hab | hba
    · exact Nat.ne_of_lt (rankOf_lt_rankOf hab ha)
    · exact (Nat.ne_of_lt (rankOf_lt_rankOf hba hb)).symm
  have hKpair :
      (l.filter fun r => rankOf l r < n).Pairwise
        fun a b => rankOf l a ≠ rankOf l b :=
    List.Pairwise.sublist (List.filter_sublist l) hrank
  have hnodup : ((l.filter fun r => rankOf l r < n).map (rankOf l)).Nodup :=
    List.pairwise_map.mpr hKpair
  have hsub : ((l.filter fun r => rankOf l r < n).map (rankOf l)) ⊆
      List.range n := by
    intro x hx
    rcases List.mem_map.mp hx with ⟨r, hrK, rfl⟩
    have hm := (List.mem_filter.mp hrK).2
    simp only [decide_eq_true_eq] at hm
    exact List.mem_range.mpr hm
  have hle := (hnodup.subperm hsub).length_le
  simpa using hle

/-- The single-call shape of the retention step: when the freshly
inserted row outranks everything (`keyGT x w = false` for all earlier
rows) and no earlier row carries its URL, filtering the capped table by
that URL yields exactly the new row. -/
theorem capHistory_filter_url (A : List HistoryRow) (u : String) (w : HistoryRow)
    (hw : w.url = u)
    (hA : ∀ x ∈ A, keyGT x w = false ∧ x.url ≠ u) :
    ((capHistory (A ++ [w])).filter fun r => r.url = u) = [w] := by
  unfold capHistory
  rw [List.filter_filter, List.filter_append]
  have hAnil : (A.filter fun a =>
      decide (a.url = u) && decide (rankOf (A ++ [w]) a < 1000)) = [] := by
    refine List.filter_eq_nil_iff.mpr fun a ha => ?_
    simp [(hA a ha).2]
  have hrank0 : rankOf (A ++ [w]) w = 0 := by
    unfold rankOf
    have : ((A ++ [w]).filter fun s => keyGT s w) = [] := by
      refine List.filter_eq_nil_iff.mpr fun x hx => ?_
      rcases List.mem_append.mp hx with hxA | hxw
      · simp [(hA x hxA).1]
      · rcases List.mem_singleton.mp hxw with rfl
        simp [keyGT_irrefl]
    rw [this]; rfl
  have hwkeep : (([w] : List HistoryRow).filter fun a =>
      decide (a.url = u) && decide (rankOf (A ++ [w]) a < 1000)) = [w] := by
    refine List.filter_eq_self.mpr fun a ha => ?_
    rcases List.mem_singleton.mp ha with rfl
    simp [hw, hrank0]
  rw [hAnil, hwkeep]
  rfl

/-- `addToHistory` preserves the table's bounds: every surviving row has
an id below the next `AUTOINCREMENT` value and a visit time no later
than any `t'` at or after the insertion time. -/
theorem addToHistoryCore_bound (s : DbState) (u ti : String) (t t' : Nat)
    (hid : ∀ r ∈ s.history, r.id < s.nextHistoryId)
    (htm : ∀ r ∈ s.history, r.visited_at ≤ t)
    (htt : t ≤ t') :
    ∀ r ∈ (addToHistoryCore s u ti t).history,
      r.id < (addToHistoryCore s u ti t).nextHistoryId ∧ r.visited_at ≤ t' := by
  intro r hr
  simp only [addToHistoryCore, capHistory] at hr
  have hr1 := (List.mem_filter.mp hr).1
  rcases List.mem_append.mp hr1 with hA | hwm
  · have hmem := (List.mem_filter.mp hA).1
    exact ⟨Nat.lt_succ_of_lt (hid r hmem), le_trans (htm r hmem) htt⟩
  · rcases List.mem_singleton.mp hwm with rfl
    exact ⟨Nat.lt_succ_self _, htt⟩

/-! ## Theorems -/

/-- C9: a non-empty (trimmed) URL-bar input starting with `http://` or
`https://` passes through unchanged; otherwise, with a dot and no space
it gets `https://` prepended; otherwise it becomes a Google search URL
over the URL-encoded input. -/
theorem handleUrlSubmit_c9 (u : String) (hne : u ≠ "") (htrim : jsTrim u = u) :
    ((startsWithStr u "http://" || startsWithStr u "https://") = true →
      handleUrlSubmitNorm u = some u) ∧
    ((startsWithStr u "http://" || startsWithStr u "https://") = false →
      (containsChar u '.' && !(containsChar u ' ')) = true →
      handleUrlSubmitNorm u = some ("https://" ++ u)) ∧
    ((startsWithStr u "http://" || startsWithStr u "https://") = false →
      (containsChar u '.' && !(containsChar u ' ')) = false →
      handleUrlSubmitNorm u =
        some ("https://www.google.com/search?q=" ++ encodeURIComponent u)) := by
  unfold handleUrlSubmitNorm
  rw [htrim]
  refine ⟨fun h1 => ?_, fun h1 h2 => ?_, fun h1 h2 => ?_⟩
  · rw [if_neg hne, if_pos h1]
  · rw [if_neg hne, if_neg (by simp [h1]), if_pos h2]
  · rw [if_neg hne, if_neg (by simp [h1]), if_neg (by simp [h2])]

/-- C9 witness: the three example inputs from the specification. -/
theorem handleUrlSubmit_c9_witness :
    handleUrlSubmitNorm "https://example.com" = some "https://example.com" ∧
    handleUrlSubmitNorm "example.com" = some "https://example.com" ∧
    handleUrlSubmitNorm "not a url" =
      some "https://www.google.com/search?q=not%20a%20url" := by
  refine ⟨(handleUrlSubmit_c9 "https://example.com" (by decide) (by decide)).1
      (by decide), ?_, ?_⟩
  · exact (handleUrlSubmit_c9 "example.com" (by decide) (by decide)).2.1
      (by decide) (by decide)
  · have h := (handleUrlSubmit_c9 "not a url" (by decide) (by decide)).2.2
      (by decide) (by decide)
    rw [h]; rfl

/-- C10: `getHistory` returns `[]` both before database initialization
and when the query errors; `addToHistory` before initialization is a
silent no-op; `removeHistoryItem` and `clearHistory` before
initialization raise the not-initialized error. -/
theorem historyNeverFails_c10 :
    (∀ f : Bool, getHistory none f = []) ∧
    (∀ s : DbState, getHistory (some s) true = []) ∧
    (∀ (url title : String) (t : Nat), addToHistory none url title t = none) ∧
    (∀ id : Nat, removeHistoryItem none id = Except.error DbError.notInitialized) ∧
    clearHistory none = Except.error DbError.notInitialized :=
  ⟨fun _ => rfl, fun _ => rfl, fun _ _ _ => rfl, fun _ => rfl, rfl⟩

/-- C4: after a successful `addBookmark(u, t)`, a second
`addBookmark(u, t2)` fails with the duplicate error and the store still
holds exactly one bookmark for `u`, with title `t`. -/
theorem addBookmark_c4 (s s1 : DbState) (u t t2 : String) (tm tm2 : Nat)
    (h : addBookmarkCore s u t tm = Except.ok s1) :
    addBookmarkCore s1 u t2 tm2 = Except.error DbError.bookmarkExists ∧
    s1.bookmarks.filter (fun b => b.url = u) =
      [{ id := s.nextBookmarkId, url := u, title := t, created_at := tm }] := by
  unfold addBookmarkCore at h
  by_cases hc : (s.bookmarks.any fun b => b.url = u) = true
  · rw [if_pos hc] at h; cases h
  · rw [if_neg hc] at h
    have hb : s1.bookmarks = s.bookmarks ++
        [{ id := s.nextBookmarkId, url := u, title := t, created_at := tm }] := by
      cases h; rfl
    have hnone : ∀ b ∈ s.bookmarks, ¬ (b.url = u) := by
      intro b hbmem
      have := List.any_eq_true.not.mp hc
      push_neg at this
      simpa using this b hbmem
    constructor
    · unfold addBookmarkCore
      rw [if_pos]
      rw [hb]
      simp [List.any_append]
    · rw [hb, List.filter_append]
      have h1 : s.bookmarks.filter (fun b => b.url = u) = [] :=
        List.filter_eq_nil_iff.mpr (by intro b hbmem; simpa using hnone b hbmem)
      rw [h1]
      simp

/-- C4 witness: a concrete run from the empty store. -/
theorem addBookmark_c4_witness :
    addBookmarkCore
        { bookmarks := [{ id := 0, url := "u", title := "t", created_at := 5 }],
          history := [], nextBookmarkId := 1, nextHistoryId := 0 } "u" "t2" 6 =
      Except.error DbError.bookmarkExists ∧
    List.filter (fun b => b.url = "u")
        (DbState.bookmarks
          { bookmarks := [{ id := 0, url := "u", title := "t", created_at := 5 }],
            history := [], nextBookmarkId := 1, nextHistoryId := 0 }) =
      [{ id := 0, url := "u", title := "t", created_at := 5 }] :=
  addBookmark_c4 { bookmarks := [], history := [], nextBookmarkId := 0, nextHistoryId := 0 }
    { bookmarks := [{ id := 0, url := "u", title := "t", created_at := 5 }],
      history := [], nextBookmarkId := 1, nextHistoryId := 0 }
    "u" "t" "t2" 5 6 rfl

/-- C8: `updateSettings` shallow-merges the partial update over the
current settings; on a successful write it persists the merged object
and then publishes it (persist strictly before publish in the effect
trace); on a failed write it fails with the save-failed error and leaves
both the in-memory settings and the stored blob unchanged. -/
theorem updateSettings_c8 (st : SettingsStore) (p : PartialSettings) :
    updateSettings st p true =
      ({ inMemory := mergeSettings st.inMemory p,
         stored := some (mergeSettings st.inMemory p) },
       [SettingsEvent.persist (mergeSettings st.inMemory p),
        SettingsEvent.publish (mergeSettings st.inMemory p)],
       Except.ok ()) ∧
    updateSettings st p false = (st, [], Except.error "Failed to save settings") :=
  ⟨rfl, rfl⟩

/-- C5 counterexample: a stored blob holding the unrecognized key
`"extraKey"` — absent from `DEFAULT_SETTINGS` — still has that key in
the object produced by the load merge `{...DEFAULT_SETTINGS, ...parsed}`.
JavaScript object spread retains keys of the right operand that the left
operand lacks, so unknown stored keys are not dropped. -/
theorem loadSettingsMerge_c5_counterexample :
    loadSettingsMerge
        (fun k => if k = "extraKey" then some (SVal.str "x") else none)
        "extraKey" = some (SVal.str "x") ∧
    defaultSettingsObj "extraKey" = none := by
  constructor <;> rfl

/-- C5 (amended): the load merge gives stored values priority for every
key the blob holds — recognized or not — and falls back to the default
value for keys the blob lacks; unknown stored keys are retained, not
dropped. -/
theorem loadSettingsMerge_c5_amended (parsed : JSObj) (k : String) (v : SVal) :
    (parsed k = some v → loadSettingsMerge parsed k = some v) ∧
    (parsed k = none → loadSettingsMerge parsed k = defaultSettingsObj k) := by
  constructor <;> intro h <;>
    simp [loadSettingsMerge, jsSpread, h, Option.orElse]

/-- C5 witness: override of a recognized key, and default fill for an
absent key. -/
theorem loadSettingsMerge_c5_witness :
    loadSettingsMerge (fun k => if k = "homepage" then some (SVal.str "h") else none)
        "homepage" = some (SVal.str "h") ∧
    loadSettingsMerge (fun _ => none) "darkMode" = defaultSettingsObj "darkMode" :=
  ⟨(loadSettingsMerge_c5_amended
      (fun k => if k = "homepage" then some (SVal.str "h") else none)
      "homepage" (SVal.str "h")).1 (by simp),
   (loadSettingsMerge_c5_amended (fun _ => none) "darkMode" (SVal.str "h")).2 rfl⟩

/-- C6 counterexample: on a successful `logActivity` call the first
effect in execution order is the React state update, not the storage
write — the code calls `setActivityLog(updatedLog)` before
`await AsyncStorage.setItem(...)`, contradicting the claimed
persist-then-update order. -/
theorem logActivity_c6_counterexample :
    ((logActivity emptyLogState "1" "ts" "NAVIGATION" "c" none true).2.head?.map
      isPersistEvent) = some false := rfl

/-- C6 (amended): `logActivity` / `addModuleFeedback` prepend the
fully-populated entry, truncate to the cap (1000 activity entries, 500
feedback entries), update in-memory state, and then persist the full
truncated list — in that order; when the persistence write fails the
in-memory log still contains the new entry and the stored blob is
unchanged. -/
theorem record_c6_amended (st : LogState) (nowId nowTs aType content : String)
    (module : Option String)
    (moduleName feedbackType message : String) (fileReference : Option String)
    (ok : Bool) :
    (let e : ActivityEntry :=
      { id := nowId, timestamp := nowTs, activity_type := aType,
        content := content, module := module }
     let updated := (e :: st.activity).take 1000
     (logActivity st nowId nowTs aType content module ok).1.activity = updated ∧
     (logActivity st nowId nowTs aType content module ok).2 =
       LogEvent.setActivityState updated ::
         (if ok then [LogEvent.persistActivity updated] else []) ∧
     (ok = false →
       (logActivity st nowId nowTs aType content module ok).1.storedActivity =
           st.storedActivity ∧
         e ∈ (logActivity st nowId nowTs aType content module ok).1.activity)) ∧
    (let f : FeedbackEntry :=
      { module_name := moduleName, feedback_type := feedbackType,
        message := message, timestamp := nowTs, file_reference := fileReference }
     let updatedF := (f :: st.feedback).take 500
     (addModuleFeedback st moduleName feedbackType message nowTs fileReference
        ok).1.feedback = updatedF ∧
     (addModuleFeedback st moduleName feedbackType message nowTs fileReference
        ok).2 =
       LogEvent.setFeedbackState updatedF ::
         (if ok then [LogEvent.persistFeedback updatedF] else []) ∧
     (ok = false →
       (addModuleFeedback st moduleName feedbackType message nowTs fileReference
           ok).1.storedFeedback = st.storedFeedback ∧
         f ∈ (addModuleFeedback st moduleName feedbackType message nowTs
           fileReference ok).1.feedback)) := by
  cases ok <;>
    simp [logActivity, addModuleFeedback, List.take_succ_cons]

/-- C6 witness: a concrete run with a failing storage write. -/
theorem record_c6_witness :
    ((logActivity emptyLogState "1" "ts" "T" "c" none false).1.storedActivity = [] ∧
      ({ id := "1", timestamp := "ts", activity_type := "T", content := "c",
         module := none } : ActivityEntry) ∈
        (logActivity emptyLogState "1" "ts" "T" "c" none false).1.activity) ∧
    ((addModuleFeedback emptyLogState "M" "INFO" "m" "ts" none false).1.storedFeedback = [] ∧
      ({ module_name := "M", feedback_type := "INFO", message := "m",
         timestamp := "ts", file_reference := none } : FeedbackEntry) ∈
        (addModuleFeedback emptyLogState "M" "INFO" "m" "ts" none false).1.feedback) :=
  ⟨(record_c6_amended emptyLogState "1" "ts" "T" "c" none "M" "INFO" "m" none false).1.2.2
    rfl,
   (record_c6_amended emptyLogState "1" "ts" "T" "c" none "M" "INFO" "m" none false).2.2.2
    rfl⟩

/-- C7: every `simulateKAiSurfLogin` call, on either non-deterministic
branch, leaves the activity log with exactly one new entry — the
outcome entry, the attempt entry having been overwritten because both
`logActivity` calls compute their update from the same render-time
`activityLog` — and the feedback log with exactly one new entry, and
returns the derived daily username on success or the failure reason on
failure. -/
theorem simulateLogin_c7 (st : LogState)
    (roamingId nowId nowTs today : String) (success ok : Bool) :
    let outcome : ActivityEntry :=
      if success then
        { id := nowId, timestamp := nowTs,
          activity_type := "KAISURF_LOGIN_SUCCESS",
          content := "Successful login with username: " ++
            dailyUsername roamingId today,
          module := some "KAiSurf" }
      else
        { id := nowId, timestamp := nowTs,
          activity_type := "KAISURF_LOGIN_FAILURE",
          content := "Login failed - invalid credentials",
          module := some "KAiSurf" }
    let fb : FeedbackEntry :=
      if success then
        { module_name := "KAiSurf", feedback_type := "SUCCESS",
          message := "Login successful. Daily username: " ++
            dailyUsername roamingId today,
          timestamp := nowTs, file_reference := none }
      else
        { module_name := "KAiSurf", feedback_type := "ERROR",
          message := "Login failed. Please check your roaming ID.",
          timestamp := nowTs, file_reference := none }
    let r := simulateKAiSurfLogin st roamingId success nowId nowTs today ok
    r.1.activity = (outcome :: st.activity).take 1000 ∧
    r.1.feedback = (fb :: st.feedback).take 500 ∧
    r.2.2 = (if success then LoginResult.ok (dailyUsername roamingId today)
             else LoginResult.fail "Invalid credentials") := by
  cases success <;> cases ok <;>
    exact ⟨rfl, rfl, rfl⟩

/-- C3 counterexample: the specification's example (rows at `now`,
`now − 2h`, `now − 26h`, `now − 8d`, empty search text) does not produce
four buckets in general.  With local midnight `today = 0` and
`now = 43200000` (noon), `now − 2h` is still on or after midnight and
lands in Today, and `now − 26h` lands in Yesterday: the output has three
sections, with Today holding two entries and This Week absent. -/
theorem organizeHistory_c3_counterexample :
    organizeHistory (c3sample 43200000) "" 0 =
      [("Today",
        [{ id := 1, url := "a", title := "A", visited_at := 43200000 },
         { id := 2, url := "b", title := "B", visited_at := 36000000 }]),
       ("Yesterday", [{ id := 3, url := "c", title := "C", visited_at := -50400000 }]),
       ("Older", [{ id := 4, url := "d", title := "D", visited_at := -648000000 }])] ∧
    (organizeHistory (c3sample 43200000) "" 0).length = 3 := by
  constructor <;> rfl

/-- C3 (amended): `organizeHistory` assigns each filtered row to exactly
one of the four buckets by the today-first boundary comparisons (Today:
`visited ≥ midnight` — for rows no later than `now` this is
`[midnight, now]`; Yesterday: `[midnight − 24h, midnight)`; This Week:
`[midnight − 7d, midnight − 24h)`; Older: earlier); a non-empty trimmed
search text first filters rows by case-insensitive substring match on
title or URL; empty buckets are omitted; and the specification's
four-bucket example output is produced provided `now` lies within two
hours after local midnight. -/
theorem organizeHistory_c3_amended (h : List HItem) (q : String) (today now : Int)
    (htoday : today ≤ now) (hearly : now < today + 7200000) :
    (∀ p ∈ organizeHistory h q today, p.2 ≠ []) ∧
    (∀ p ∈ organizeHistory h q today, ∀ i ∈ p.2,
      (p.1 = "Today" → today ≤ i.visited_at) ∧
      (p.1 = "Yesterday" → today - dayMs ≤ i.visited_at ∧ i.visited_at < today) ∧
      (p.1 = "This Week" →
        today - 7 * dayMs ≤ i.visited_at ∧ i.visited_at < today - dayMs) ∧
      (p.1 = "Older" → i.visited_at < today - 7 * dayMs)) ∧
    (∀ i : HItem,
      (((organizeHistory h q today).map Prod.snd).flatten).count i =
        (filteredBy h q).count i) ∧
    (jsTrim q ≠ "" → filteredBy h q = h.filter (matchesQuery q)) ∧
    organizeHistory (c3sample now) "" today =
      [("Today", [{ id := 1, url := "a", title := "A", visited_at := now }]),
       ("Yesterday",
        [{ id := 2, url := "b", title := "B", visited_at := now - 7200000 }]),
       ("This Week",
        [{ id := 3, url := "c", title := "C", visited_at := now - 93600000 }]),
       ("Older",
        [{ id := 4, url := "d", title := "D", visited_at := now - 691200000 }])] := by
  refine ⟨?_, ?_, ?_, ?_, ?_⟩
  · -- empty buckets are omitted
    intro p hp
    simp only [organizeHistory, List.append_assoc, List.mem_append] at hp
    rcases hp with hp | hp | hp | hp <;>
      · obtain ⟨rfl, hne⟩ := mem_sectionBlock hp
        exact hne
  · -- bucket membership respects the boundaries
    intro p hp i hi
    simp only [organizeHistory, List.append_assoc, List.mem_append] at hp
    rcases hp with hp | hp | hp | hp <;>
      obtain ⟨rfl, -⟩ := mem_sectionBlock hp <;>
      refine ⟨fun hn => ?_, fun hn => ?_, fun hn => ?_, fun hn => ?_⟩ <;>
      simp only [Prod.fst] at hn <;>
      first
        | (exfalso; revert hn; decide)
        | (have hcond := (List.mem_filter.mp hi).2
           simp only [Bool.and_eq_true, decide_eq_true_eq] at hcond
           omega)
  · -- each filtered row lands in exactly one bucket (count preservation)
    intro i
    simp only [organizeHistory, List.map_append, List.flatten_append,
      List.count_append]
    have hblock : ∀ (n : String) (l : List HItem),
        (((if l.isEmpty then ([] : List (String × List HItem)) else
            [(n, l)]).map Prod.snd).flatten).count i = l.count i := by
      intro n l
      split
      · rename_i he
        simp [List.isEmpty_iff.mp he]
      · simp
    rw [hblock, hblock, hblock, hblock]
    rw [count_filter_eq, count_filter_eq, count_filter_eq, count_filter_eq]
    simp only [Bool.and_eq_true, decide_eq_true_eq, dayMs]
    split_ifs <;> omega
  · -- non-empty trimmed search text filters before bucketing
    intro hq
    simp [filteredBy, hq]
  · -- the example output, within two hours after midnight
    have e0 : jsTrim "" = "" := rfl
    have a1 : today ≤ now := htoday
    have a2 : ¬ (now < today) := by omega
    have a3 : ¬ (now < today - dayMs) := by simp only [dayMs]; omega
    have a4 : ¬ (now < today - 7 * dayMs) := by simp only [dayMs]; omega
    have b1 : ¬ (today ≤ now - 7200000) := by omega
    have b2 : now - 7200000 < today := by omega
    have b3 : today ≤ now - 7200000 + dayMs := by simp only [dayMs]; omega
    have b4 : ¬ (now - 7200000 < today - dayMs) := by simp only [dayMs]; omega
    have b5 : ¬ (now - 7200000 < today - 7 * dayMs) := by
      simp only [dayMs]; omega
    have c1 : ¬ (today ≤ now - 93600000) := by omega
    have c2 : ¬ (today ≤ now - 93600000 + dayMs) := by simp only [dayMs]; omega
    have c3 : now - 93600000 < today := by omega
    have c4 : now - 93600000 < today - dayMs := by simp only [dayMs]; omega
    have c5 : today ≤ now - 93600000 + 7 * dayMs := by simp only [dayMs]; omega
    have c6 : ¬ (now - 93600000 < today - 7 * dayMs) := by
      simp only [dayMs]; omega
    have d1 : ¬ (today ≤ now - 691200000) := by omega
    have d2 : now - 691200000 < today := by omega
    have d3 : ¬ (today ≤ now - 691200000 + dayMs) := by simp only [dayMs]; omega
    have d4 : now - 691200000 < today - dayMs := by simp only [dayMs]; omega
    have d5 : ¬ (today ≤ now - 691200000 + 7 * dayMs) := by
      simp only [dayMs]; omega
    have d6 : now - 691200000 < today - 7 * dayMs := by simp only [dayMs]; omega
    simp [organizeHistory, filteredBy, c3sample, e0, List.filter_cons,
      a1, a2, a3, a4, b1, b2, b3, b4, b5, c1, c2, c3, c4, c5, c6,
      d1, d2, d3, d4, d5, d6]

/-- C3 witness: the amended theorem at `today = 0`, `now = 0`, on the
empty history with empty search text. -/
theorem organizeHistory_c3_witness :
    (∀ p ∈ organizeHistory [] "" 0, p.2 ≠ []) ∧
    (∀ p ∈ organizeHistory [] "" 0, ∀ i ∈ p.2,
      (p.1 = "Today" → (0 : Int) ≤ i.visited_at) ∧
      (p.1 = "Yesterday" → (0 : Int) - dayMs ≤ i.visited_at ∧ i.visited_at < 0) ∧
      (p.1 = "This Week" →
        (0 : Int) - 7 * dayMs ≤ i.visited_at ∧ i.visited_at < 0 - dayMs) ∧
      (p.1 = "Older" → i.visited_at < (0 : Int) - 7 * dayMs)) ∧
    (∀ i : HItem,
      (((organizeHistory [] "" 0).map Prod.snd).flatten).count i =
        (filteredBy [] "").count i) ∧
    (jsTrim "" ≠ "" → filteredBy [] "" = List.filter (matchesQuery "") []) ∧
    organizeHistory (c3sample 0) "" 0 =
      [("Today", [{ id := 1, url := "a", title := "A", visited_at := 0 }]),
       ("Yesterday",
        [{ id := 2, url := "b", title := "B", visited_at := (0 : Int) - 7200000 }]),
       ("This Week",
        [{ id := 3, url := "c", title := "C", visited_at := (0 : Int) - 93600000 }]),
       ("Older",
        [{ id := 4, url := "d", title := "D",
           visited_at := (0 : Int) - 691200000 }])] :=
  organizeHistory_c3_amended [] "" 0 0 (by decide) (by decide)

/-- C1: visiting the same URL twice in sequence (the second visit no
earlier than the first, ids and times within the table's bounds) leaves
exactly one history row for that URL — the row inserted by the second
call, carrying its visit timestamp. -/
theorem addToHistory_c1 (s : DbState) (u ti1 ti2 : String) (t1 t2 : Nat)
    (hid : ∀ r ∈ s.history, r.id < s.nextHistoryId)
    (htm : ∀ r ∈ s.history, r.visited_at ≤ t1)
    (ht : t1 ≤ t2) :
    ((addToHistoryCore (addToHistoryCore s u ti1 t1) u ti2 t2).history.filter
        fun r => r.url = u) =
      [{ id := s.nextHistoryId + 1, url := u, title := ti2,
         visited_at := t2 }] := by
  have hbound := addToHistoryCore_bound s u ti1 t1 t2 hid htm ht
  have key := capHistory_filter_url
    ((addToHistoryCore s u ti1 t1).history.filter fun r => r.url ≠ u) u
    { id := (addToHistoryCore s u ti1 t1).nextHistoryId, url := u,
      title := ti2, visited_at := t2 } rfl ?cond
  case cond =>
    intro x hx
    have hxs1 := (List.mem_filter.mp hx).1
    have hxu : x.url ≠ u := by simpa using (List.mem_filter.mp hx).2
    obtain ⟨hxid, hxtm⟩ := hbound x hxs1
    refine ⟨?_, hxu⟩
    refine Bool.eq_false_iff.mpr fun hgt => ?_
    simp only [keyGT, Bool.or_eq_true, Bool.and_eq_true,
      decide_eq_true_eq] at hgt
    omega
  exact key

/-- C1 witness: two visits of the same URL on the empty store. -/
theorem addToHistory_c1_witness :
    ((addToHistoryCore (addToHistoryCore emptyDb "u" "t1" 1) "u" "t2" 2).history.filter
        fun r => r.url = "u") =
      [{ id := 1, url := "u", title := "t2", visited_at := 2 }] :=
  addToHistory_c1 emptyDb "u" "t1" "t2" 1 2 (by simp [emptyDb])
    (by simp [emptyDb]) (by omega)

/-- C2: from a store of 1000 rows with strictly increasing visit
timestamps, one further `addToHistory` with a fresh URL at a later time
leaves exactly 1000 rows, the row with the earliest timestamp — the
first one — now evicted and every other row retained together with the
new row; and in general (whenever ids are pairwise distinct and below
the `AUTOINCREMENT` counter, which every reachable table satisfies) the
call never leaves more than 1000 rows. -/
theorem addToHistory_c2 (s : DbState) (u ti : String) (t : Nat)
    (r0 : HistoryRow) (rest : List HistoryRow)
    (hh : s.history = r0 :: rest)
    (hlen : rest.length = 999)
    (hsort : s.history.Pairwise fun a b => a.visited_at < b.visited_at)
    (hfresh : ∀ r ∈ s.history, r.url ≠ u)
    (htime : ∀ r ∈ s.history, r.visited_at < t) :
    (addToHistoryCore s u ti t).history =
      rest ++ [{ id := s.nextHistoryId, url := u, title := ti,
                 visited_at := t }] ∧
    (addToHistoryCore s u ti t).history.length = 1000 ∧
    r0 ∉ (addToHistoryCore s u ti t).history ∧
    (∀ (s2 : DbState) (u2 ti2 : String) (t2 : Nat),
      (s2.history.map HistoryRow.id).Nodup →
      (∀ r ∈ s2.history, r.id < s2.nextHistoryId) →
      (addToHistoryCore s2 u2 ti2 t2).history.length ≤ 1000) := by
  set w : HistoryRow :=
    { id := s.nextHistoryId, url := u, title := ti, visited_at := t } with hw
  have hr0mem : r0 ∈ s.history := by rw [hh]; exact List.mem_cons_self _ _
  have hmin : ∀ r ∈ rest, r0.visited_at < r.visited_at := by
    have hp : List.Pairwise (fun a b => a.visited_at < b.visited_at)
        (r0 :: rest) := hh ▸ hsort
    intro r hr
    exact List.rel_of_pairwise_cons hp hr
  have hAid : (s.history.filter fun r => r.url ≠ u) = s.history :=
    List.filter_eq_self.mpr fun r hr => by simpa using hfresh r hr
  have hX : (s.history.filter fun r => r.url ≠ u) ++ [w] =
      r0 :: (rest ++ [w]) := by
    rw [hAid, hh]; rfl
  have hlenX : (rest ++ [w]).length = 1000 := by simp [hlen]
  have hcap : capHistory ((s.history.filter fun r => r.url ≠ u) ++ [w]) =
      rest ++ [w] := by
    rw [hX]
    unfold capHistory
    have hrank_r0 : rankOf (r0 :: (rest ++ [w])) r0 = 1000 := by
      unfold rankOf
      rw [List.filter_cons_of_neg (by simp [keyGT_irrefl])]
      have hfe : ((rest ++ [w]).filter fun x => keyGT x r0) = rest ++ [w] := by
        refine List.filter_eq_self.mpr fun x hx => ?_
        rcases List.mem_append.mp hx with hxr | hxw
        · simp only [keyGT, Bool.or_eq_true, Bool.and_eq_true,
            decide_eq_true_eq]
          exact Or.inl (hmin x hxr)
        · rcases List.mem_singleton.mp hxw with rfl
          simp only [hw, keyGT, Bool.or_eq_true, Bool.and_eq_true,
            decide_eq_true_eq]
          exact Or.inl (htime r0 hr0mem)
      rw [hfe, hlenX]
    have hrank_rest : ∀ r ∈ rest ++ [w],
        rankOf (r0 :: (rest ++ [w])) r < 1000 := by
      intro r hr
      rcases List.mem_append.mp hr with hrr | hrw
      · unfold rankOf
        rw [List.filter_cons_of_neg ?hneg]
        case hneg =>
          simp only [keyGT, Bool.or_eq_true, Bool.and_eq_true,
            decide_eq_true_eq]
          have := hmin r hrr
          omega
        have hlt := length_filter_lt_of_mem (p := fun x => keyGT x r)
          (List.mem_append_left [w] hrr) (keyGT_irrefl r)
        omega
      · rcases List.mem_singleton.mp hrw with rfl
        unfold rankOf
        have hnil : ((r0 :: (rest ++ [w])).filter fun x => keyGT x w) = [] := by
          refine List.filter_eq_nil_iff.mpr fun x hx => ?_
          simp only [Bool.not_eq_true]
          rcases List.mem_cons.mp hx with rfl | hx2
          · refine Bool.eq_false_iff.mpr fun hgt => ?_
            simp only [hw, keyGT, Bool.or_eq_true, Bool.and_eq_true,
              decide_eq_true_eq] at hgt
            have := htime x hr0mem
            omega
          rcases List.mem_append.mp hx2 with hxr | hxw
          · refine Bool.eq_false_iff.mpr fun hgt => ?_
            simp only [hw, keyGT, Bool.or_eq_true, Bool.and_eq_true,
              decide_eq_true_eq] at hgt
            have hxs : x ∈ s.history := by
              rw [hh]; exact List.mem_cons_of_mem _ hxr
            have := htime x hxs
            omega
          · rcases List.mem_singleton.mp hxw with rfl
            exact keyGT_irrefl w
        rw [hnil]
        simp
    rw [List.filter_cons_of_neg (by simp [hrank_r0])]
    exact List.filter_eq_self.mpr fun r hr => by simp [hrank_rest r hr]
  have hmain : (addToHistoryCore s u ti t).history = rest ++ [w] := hcap
  refine ⟨hmain, by rw [hmain]; exact hlenX, ?_, ?_⟩
  · rw [hmain]
    intro hmem
    rcases List.mem_append.mp hmem with h1 | h2
    · exact absurd (hmin r0 h1) (lt_irrefl _)
    · have heq := List.mem_singleton.mp h2
      apply hfresh r0 hr0mem
      rw [heq, hw]
  · intro s2 u2 ti2 t2 hnd hid2
    have hshape : (addToHistoryCore s2 u2 ti2 t2).history =
        capHistory ((s2.history.filter fun r => r.url ≠ u2) ++
          [{ id := s2.nextHistoryId, url := u2, title := ti2,
             visited_at := t2 }]) := rfl
    rw [hshape]
    unfold capHistory
    apply length_filter_rank_lt_le
    rw [List.map_append]
    simp only [List.map_cons, List.map_nil]
    refine List.nodup_append.mpr ⟨?_, by simp, ?_⟩
    · exact List.Nodup.sublist
        (List.Sublist.map HistoryRow.id (List.filter_sublist _)) hnd
    · refine List.disjoint_singleton.mpr fun hmem => ?_
      rcases List.mem_map.mp hmem with ⟨r, hrA, hrid⟩
      have hrs : r ∈ s2.history := (List.mem_filter.mp hrA).1
      have := hid2 r hrs
      omega

/-- C2 witness: the concrete 1000-row store with timestamps `1…1000`,
visited by a fresh URL at time 5000. -/
theorem addToHistory_c2_witness :
    (addToHistoryCore c2store "fresh" "ft" 5000).history =
      (List.range' 2 999).map c2row ++
        [{ id := 2000, url := "fresh", title := "ft", visited_at := 5000 }] ∧
    (addToHistoryCore c2store "fresh" "ft" 5000).history.length = 1000 ∧
    c2row 1 ∉ (addToHistoryCore c2store "fresh" "ft" 5000).history ∧
    (∀ (s2 : DbState) (u2 ti2 : String) (t2 : Nat),
      (s2.history.map HistoryRow.id).Nodup →
      (∀ r ∈ s2.history, r.id < s2.nextHistoryId) →
      (addToHistoryCore s2 u2 ti2 t2).history.length ≤ 1000) :=
  addToHistory_c2 c2store "fresh" "ft" 5000 (c2row 1)
    ((List.range' 2 999).map c2row)
    rfl
    (by simp [List.length_range'])
    (by
      refine List.pairwise_map.mpr ?_
      exact List.Pairwise.imp (fun h => by simpa [c2row] using h)
        (List.pairwise_lt_range' 1 1000))
    (by
      intro r hr
      obtain ⟨k, hk, rfl⟩ := List.mem_map.mp hr
      simp [c2row])
    (by
      intro r hr
      obtain ⟨k, hk, rfl⟩ := List.mem_map.mp hr
      have := List.mem_range'_1.mp hk
      simp only [c2row]
      omega)
